import Mathlib

/-!
Shallow embedding of
`core/lib/zksync_core/src/api_server/web3/backend_jsonrpsee/batch_limiter_middleware.rs`:
a per-connection rate-limiting middleware for a JSON-RPC server over WebSocket.
The middleware wraps an inner handler; on each request it either forwards the
request (returning the inner handler's future unchanged) or, when a configured
token-bucket gate denies a token, returns an already-resolved 429 error response.
-/

namespace BatchLimiter

/-- Transport label used for metrics (source: `enum Transport { Ws }`). -/
inductive Transport
  | Ws
deriving DecidableEq, Repr

/-- Request identifier: a JSON-RPC id is a number or a string; it is opaque to the
middleware and echoed in responses. -/
inductive RequestId
  | num (n : Nat)
  | str (s : String)
deriving DecidableEq, Repr

/-- JSON-RPC request (`jsonrpsee::types::Request`): carries at least an id used to
correlate the response, plus a method name the middleware never inspects. -/
structure Request where
  id : RequestId
  method : String
deriving DecidableEq, Repr

/-- JSON-RPC error object (source: `ErrorObject::borrowed(code, message, data)`). -/
structure ErrorObject where
  code : Int
  message : String
  data : Option String
deriving DecidableEq, Repr

/-- Constructor mirroring `ErrorObject::borrowed`. -/
def ErrorObject.borrowed (code : Int) (message : String) (data : Option String) :
    ErrorObject :=
  { code := code, message := message, data := data }

/-- Error response (source: `MethodResponse::error(id, err)`): the id of the request
it answers together with the error object. -/
structure MethodResponse where
  id : RequestId
  err : ErrorObject
deriving DecidableEq, Repr

/-- Constructor mirroring `MethodResponse::error`. -/
def MethodResponse.error (id : RequestId) (err : ErrorObject) : MethodResponse :=
  { id := id, err := err }

/-- Response future of the middleware (source: jsonrpsee `layer::ResponseFuture`):
either an already-resolved response (`ResponseFuture::ready`) or the inner
handler's future returned unchanged (`ResponseFuture::future`), with `ρ` the type
of the inner handler's future. -/
inductive ResponseFuture (ρ : Type)
  | ready (rp : MethodResponse)
  | future (f : ρ)
deriving DecidableEq, Repr

/-- Predicate: the future is an already-resolved local response (the denial path). -/
def ResponseFuture.isReady {ρ : Type} : ResponseFuture ρ → Bool
  | .ready _ => true
  | .future _ => false

/-- Metrics state (source: `struct LimitMiddlewareMetrics`): the `rate_limited` and
`rejected` counter families keyed by transport, and the `size` histogram family
modelled as the list of recorded observations per transport. -/
structure LimitMiddlewareMetrics where
  rate_limited : Transport → Nat
  size : Transport → List Nat
  rejected : Transport → Nat

/-- Increment of the `rate_limited` counter at one transport label
(source: `METRICS.rate_limited[&self.transport].inc()`). -/
def LimitMiddlewareMetrics.incRateLimited (m : LimitMiddlewareMetrics) (t : Transport) :
    LimitMiddlewareMetrics :=
  { m with rate_limited := fun u => if u = t then m.rate_limited u + 1 else m.rate_limited u }

/-- Modelled from the spec: the token-bucket gate is the external `governor` crate
(`RateLimiter::direct(Quota::per_minute(N))`), not part of this repository's sources;
per spec section 4.1 the bucket state is the available token count in [0, N] and the
last-refill timestamp. Time and tokens are rationals (continuous refill). -/
structure GateState where
  available : ℚ
  lastRefill : ℚ
deriving DecidableEq, Repr

/-- Modelled from the spec: a fresh bucket of capacity N starts full, with the
last-refill clock set to the construction time t0. -/
def GateState.fresh (N : Nat) (t0 : ℚ) : GateState :=
  { available := (N : ℚ), lastRefill := t0 }

/-- Modelled from the spec: the refill step of section 4.1 — accumulate
`(now − last_refill) · N / 60` tokens, clipped to capacity N, with elapsed time
clamped at zero on clock regression, and set `last_refill := now`. -/
def refill (N : Nat) (now : ℚ) (st : GateState) : GateState :=
  { available := min (st.available + max (now - st.lastRefill) 0 * (N : ℚ) / 60) (N : ℚ),
    lastRefill := now }

/-- Modelled from the spec: `check_n(k)` of section 4.1 — refill, then if at least k
tokens are available consume them and admit, else leave the bucket unchanged (past
the refill) and deny. Returns the decision (`true` = admit) and the new state. -/
def check_n (N : Nat) (k : Nat) (now : ℚ) (st : GateState) : Bool × GateState :=
  let st' := refill N now st
  if (k : ℚ) ≤ st'.available then
    (true, { available := st'.available - (k : ℚ), lastRefill := st'.lastRefill })
  else
    (false, st')

/-- Middleware state (source: `struct LimitMiddleware<S>`): the inner handler, the
optional rate limiter — modelled by its quota N, the bucket state being passed
explicitly through `call` — and the pinned transport label. -/
structure LimitMiddleware (S : Type) where
  inner : S
  rate_limiter : Option Nat
  transport : Transport

/-- Construction (source: `LimitMiddleware::new`): stores the inner handler, builds
the limiter from the optional limit, and pins the `Ws` transport. `NonZeroU32::new`
on a zero limit makes the `.expect(...)` panic, modelled as `Except.error` with the
source's panic message. -/
def LimitMiddleware.new {S : Type} (inner : S) (requests_per_minute_limit : Option Nat) :
    Except String (LimitMiddleware S) :=
  match requests_per_minute_limit with
  | none => Except.ok { inner := inner, rate_limiter := none, transport := Transport.Ws }
  | some limit =>
    if limit = 0 then Except.error "requests per minute must be > 0; qed"
    else Except.ok { inner := inner, rate_limiter := some limit, transport := Transport.Ws }

/-- Result of one `call`: the returned response future, the bucket state and metrics
after the call, and whether the inner handler's `call` was invoked. -/
structure CallResult (ρ : Type) where
  response : ResponseFuture ρ
  gate : GateState
  metrics : LimitMiddlewareMetrics
  innerInvoked : Bool

/-- Request interception (source: `LimitMiddleware::call`): with a limiter present,
ask the gate for one token (`num_requests = NonZeroU32::MIN`); on denial increment
`rate_limited`, build the 429 "Too many requests" error response preserving the
request id, and return it as an already-resolved future without touching the inner
handler; otherwise (admission, or no limiter configured) return the inner handler's
future unchanged. `innerCall` is the inner handler's `call`; bucket state and
metrics are threaded explicitly. -/
def LimitMiddleware.call {S ρ : Type} (self : LimitMiddleware S)
    (innerCall : S → Request → ρ) (request : Request) (now : ℚ)
    (g : GateState) (m : LimitMiddlewareMetrics) : CallResult ρ :=
  match self.rate_limiter with
  | some N =>
    let num_requests : Nat := 1
    let res := check_n N num_requests now g
    if res.1 = false then
      { response := ResponseFuture.ready (MethodResponse.error request.id
          (ErrorObject.borrowed 429 "Too many requests" none)),
        gate := res.2,
        metrics := m.incRateLimited self.transport,
        innerInvoked := false }
    else
      { response := ResponseFuture.future (innerCall self.inner request),
        gate := res.2, metrics := m, innerInvoked := true }
  | none =>
    { response := ResponseFuture.future (innerCall self.inner request),
      gate := g, metrics := m, innerInvoked := true }

/-- Sequential execution of a list of timed requests through the middleware,
threading bucket state and metrics; returns the per-request (response, inner
invoked) observations and the final bucket state and metrics. -/
def runCalls {S ρ : Type} (mw : LimitMiddleware S) (innerCall : S → Request → ρ) :
    List (Request × ℚ) → GateState → LimitMiddlewareMetrics →
      List (ResponseFuture ρ × Bool) × GateState × LimitMiddlewareMetrics
  | [], g, m => ([], g, m)
  | e :: es, g, m =>
    let c := mw.call innerCall e.1 e.2 g m
    let rest := runCalls mw innerCall es c.gate c.metrics
    ((c.response, c.innerInvoked) :: rest.1, rest.2.1, rest.2.2)

/-- Number of admitted requests in a list of per-request observations. -/
def admittedCount {ρ : Type} (results : List (ResponseFuture ρ × Bool)) : Nat :=
  List.countP (fun out => out.2) results

/-- Number of denied requests (already-resolved local rejections) in a list of
per-request observations. -/
def deniedCount {ρ : Type} (results : List (ResponseFuture ρ × Bool)) : Nat :=
  List.countP (fun out => out.1.isReady) results

/-! Helper lemmas about the gate. -/

lemma refill_lastRefill (N : Nat) (now : ℚ) (st : GateState) :
    (refill N now st).lastRefill = now := rfl

lemma refill_available_ge (N : Nat) (now : ℚ) (st : GateState) :
    min st.available (N : ℚ) ≤ (refill N now st).available := by
  have hx : (0:ℚ) ≤ max (now - st.lastRefill) 0 * (N : ℚ) / 60 :=
    div_nonneg (mul_nonneg (le_max_right _ _) (Nat.cast_nonneg N)) (by norm_num)
  show min st.available (N : ℚ) ≤
    min (st.available + max (now - st.lastRefill) 0 * (N : ℚ) / 60) (N : ℚ)
  refine le_min ?_ (min_le_right _ _)
  have h1 : min st.available (N:ℚ) ≤ st.available := min_le_left _ _
  linarith

lemma refill_full (N : Nat) (now : ℚ) (st : GateState)
    (h0 : 0 ≤ st.available) (h60 : st.lastRefill + 60 ≤ now) :
    (refill N now st).available = (N : ℚ) := by
  have hmax : max (now - st.lastRefill) 0 = now - st.lastRefill := max_eq_left (by linarith)
  have hN : (0:ℚ) ≤ (N:ℚ) := Nat.cast_nonneg N
  have h2 : (60:ℚ) * (N:ℚ) ≤ (now - st.lastRefill) * (N:ℚ) :=
    mul_le_mul_of_nonneg_right (by linarith) hN
  have h3 : (N:ℚ) ≤ (now - st.lastRefill) * (N:ℚ) / 60 := by
    rw [le_div_iff₀ (by norm_num : (0:ℚ) < 60)]
    nlinarith
  simp only [refill, hmax]
  exact min_eq_right (by linarith)

lemma check_n_admits (N k : Nat) (now : ℚ) (st : GateState)
    (h : (k : ℚ) ≤ (refill N now st).available) :
    check_n N k now st = (true, ⟨(refill N now st).available - (k : ℚ), now⟩) := by
  simp only [check_n, if_pos h, refill_lastRefill]

lemma check_n_denies (N k : Nat) (now : ℚ) (st : GateState)
    (h : ¬ (k : ℚ) ≤ (refill N now st).available) :
    check_n N k now st = (false, refill N now st) := by
  simp only [check_n, if_neg h]

/-- Unfolding lemma for `call` with a limiter present, phrased on the gate decision. -/
lemma call_some_eq {S ρ : Type} (inner : S) (tr : Transport) (f : S → Request → ρ)
    (N : Nat) (r : Request) (now : ℚ) (g : GateState) (m : LimitMiddlewareMetrics) :
    LimitMiddleware.call ⟨inner, some N, tr⟩ f r now g m =
      if (check_n N 1 now g).1 = false then
        { response := ResponseFuture.ready (MethodResponse.error r.id
            (ErrorObject.borrowed 429 "Too many requests" none)),
          gate := (check_n N 1 now g).2,
          metrics := m.incRateLimited tr, innerInvoked := false }
      else
        { response := ResponseFuture.future (f inner r),
          gate := (check_n N 1 now g).2, metrics := m, innerInvoked := true } := rfl

/-- Unfolding lemma for `call` with no limiter configured (the pass-through branch),
shared by the sequence lemmas. -/
lemma call_none_eq {S ρ : Type} (inner : S) (tr : Transport) (f : S → Request → ρ)
    (r : Request) (now : ℚ) (g : GateState) (m : LimitMiddlewareMetrics) :
    LimitMiddleware.call ⟨inner, none, tr⟩ f r now g m =
      { response := ResponseFuture.future (f inner r), gate := g, metrics := m,
        innerInvoked := true } := rfl

/-- Specialization of `check_n_admits` to the single token the middleware requests. -/
lemma check_n_one_admits (N : Nat) (now : ℚ) (st : GateState)
    (h : 1 ≤ (refill N now st).available) :
    check_n N 1 now st = (true, ⟨(refill N now st).available - 1, now⟩) := by
  have := check_n_admits N 1 now st (by exact_mod_cast h)
  simpa using this

/-- On admission, `call` forwards to the inner handler and consumes one token. -/
lemma call_admit_eq {S ρ : Type} (inner : S) (tr : Transport) (f : S → Request → ρ)
    (N : Nat) (r : Request) (now : ℚ) (g : GateState) (m : LimitMiddlewareMetrics)
    (h : 1 ≤ (refill N now g).available) :
    LimitMiddleware.call ⟨inner, some N, tr⟩ f r now g m =
      { response := ResponseFuture.future (f inner r),
        gate := ⟨(refill N now g).available - 1, now⟩, metrics := m,
        innerInvoked := true } := by
  rw [call_some_eq, check_n_one_admits N now g h]
  simp

/-- On denial, `call` rejects, bumps `rate_limited`, and leaves the bucket at the
refilled state. -/
lemma call_deny_eq {S ρ : Type} (inner : S) (tr : Transport) (f : S → Request → ρ)
    (N : Nat) (r : Request) (now : ℚ) (g : GateState) (m : LimitMiddlewareMetrics)
    (h : ¬ 1 ≤ (refill N now g).available) :
    LimitMiddleware.call ⟨inner, some N, tr⟩ f r now g m =
      { response := ResponseFuture.ready (MethodResponse.error r.id
          (ErrorObject.borrowed 429 "Too many requests" none)),
        gate := refill N now g, metrics := m.incRateLimited tr,
        innerInvoked := false } := by
  rw [call_some_eq, check_n_denies N 1 now g (by exact_mod_cast h)]
  simp

lemma runCalls_nil {S ρ : Type} (mw : LimitMiddleware S) (f : S → Request → ρ)
    (g : GateState) (m : LimitMiddlewareMetrics) :
    runCalls mw f [] g m = ([], g, m) := rfl

lemma runCalls_cons {S ρ : Type} (mw : LimitMiddleware S) (f : S → Request → ρ)
    (e : Request × ℚ) (es : List (Request × ℚ)) (g : GateState)
    (m : LimitMiddlewareMetrics) :
    runCalls mw f (e :: es) g m =
      (((mw.call f e.1 e.2 g m).response, (mw.call f e.1 e.2 g m).innerInvoked) ::
          (runCalls mw f es (mw.call f e.1 e.2 g m).gate
            (mw.call f e.1 e.2 g m).metrics).1,
        (runCalls mw f es (mw.call f e.1 e.2 g m).gate
          (mw.call f e.1 e.2 g m).metrics).2.1,
        (runCalls mw f es (mw.call f e.1 e.2 g m).gate
          (mw.call f e.1 e.2 g m).metrics).2.2) := rfl

lemma admittedCount_cons {ρ : Type} (x : ResponseFuture ρ × Bool)
    (l : List (ResponseFuture ρ × Bool)) :
    admittedCount (x :: l) = admittedCount l + (if x.2 = true then 1 else 0) := by
  simp [admittedCount, List.countP_cons]

lemma deniedCount_cons {ρ : Type} (x : ResponseFuture ρ × Bool)
    (l : List (ResponseFuture ρ × Bool)) :
    deniedCount (x :: l) = deniedCount l + (if x.1.isReady = true then 1 else 0) := by
  simp [deniedCount, List.countP_cons]

lemma incRateLimited_self (m : LimitMiddlewareMetrics) (t : Transport) :
    (m.incRateLimited t).rate_limited t = m.rate_limited t + 1 := by
  simp [LimitMiddlewareMetrics.incRateLimited]

/-- Key induction: when the bucket holds at least as many tokens as there are
requests (and no more requests than the capacity), every request in the sequence is
admitted and forwarded, and metrics are untouched. -/
lemma runCalls_all_admitted {S ρ : Type} (inner : S) (tr : Transport)
    (f : S → Request → ρ) (N : Nat) :
    ∀ (events : List (Request × ℚ)) (g : GateState) (m : LimitMiddlewareMetrics),
      events.length ≤ N → (events.length : ℚ) ≤ g.available →
      (runCalls ⟨inner, some N, tr⟩ f events g m).1 =
          (events.map fun e => (ResponseFuture.future (f inner e.1), true)) ∧
        (runCalls ⟨inner, some N, tr⟩ f events g m).2.2 = m := by
  intro events
  induction events with
  | nil => intro g m _ _; exact ⟨rfl, rfl⟩
  | cons e es ih =>
    intro g m hlen hav
    have hlen' : es.length ≤ N := Nat.le_of_succ_le hlen
    have h1 : (es.length : ℚ) + 1 ≤ g.available := by
      have : (((e :: es).length : Nat) : ℚ) = (es.length : ℚ) + 1 := by
        push_cast [List.length_cons]; ring
      rw [← this]; exact hav
    have hNq : (es.length : ℚ) + 1 ≤ (N : ℚ) := by exact_mod_cast hlen
    have havail : (es.length : ℚ) + 1 ≤ (refill N e.2 g).available :=
      le_trans (le_min h1 hNq) (refill_available_ge N e.2 g)
    have hnn : (0:ℚ) ≤ (es.length : ℚ) := Nat.cast_nonneg _
    have hone : (1 : ℚ) ≤ (refill N e.2 g).available := by linarith
    have htail := ih ⟨(refill N e.2 g).available - 1, e.2⟩ m hlen' (by
      show (es.length : ℚ) ≤ (refill N e.2 g).available - 1
      linarith)
    rw [runCalls_cons, call_admit_eq inner tr f N e.1 e.2 g m hone]
    exact ⟨by rw [List.map_cons, htail.1], htail.2⟩

/-- Fixed point of refill at zero elapsed time: checking again at the same instant
adds no tokens. -/
lemma refill_no_elapsed (N : Nat) (t0 : ℚ) (a : ℚ) (ha : a ≤ (N:ℚ)) :
    refill N t0 ⟨a, t0⟩ = ⟨a, t0⟩ := by
  simp only [refill]
  have hmax : max (t0 - t0) 0 = 0 := by simp
  simp [hmax, min_eq_left ha]

/-- Key induction for same-instant contention: starting from `a ≤ N` tokens, a batch
of requests arriving at the bucket's last-refill instant sees exactly `min a K`
admissions. -/
lemma runCalls_count_at_instant {S ρ : Type} (inner : S) (tr : Transport)
    (f : S → Request → ρ) (N : Nat) (t0 : ℚ) :
    ∀ (events : List (Request × ℚ)) (a : Nat) (m : LimitMiddlewareMetrics),
      (∀ e ∈ events, e.2 = t0) → a ≤ N →
      admittedCount (runCalls ⟨inner, some N, tr⟩ f events ⟨(a : ℚ), t0⟩ m).1 =
        min a events.length := by
  intro events
  induction events with
  | nil => intro a m _ _; simp [runCalls_nil, admittedCount]
  | cons e es ih =>
    intro a m hsame haN
    have het : e.2 = t0 := hsame e (List.mem_cons_self e es)
    have hsame' : ∀ x ∈ es, x.2 = t0 := fun x hx => hsame x (List.mem_cons_of_mem e hx)
    have hfix : refill N e.2 ⟨(a:ℚ), t0⟩ = ⟨(a:ℚ), t0⟩ := by
      rw [het]; exact refill_no_elapsed N t0 (a:ℚ) (by exact_mod_cast haN)
    cases a with
    | zero =>
      have hden : ¬ (1:ℚ) ≤ (refill N e.2 ⟨((0:Nat):ℚ), t0⟩).available := by
        rw [show (((0:Nat)):ℚ) = (0:ℚ) from by norm_num] at hfix ⊢
        rw [hfix]
        norm_num
      rw [runCalls_cons, call_deny_eq inner tr f N e.1 e.2 ⟨((0:Nat):ℚ), t0⟩ m hden]
      rw [admittedCount_cons]
      simp only [hfix]
      have := ih 0 (m.incRateLimited tr) hsame' (Nat.zero_le N)
      simp only [Nat.cast_zero] at this ⊢
      rw [this]
      simp
    | succ a' =>
      have hadm : (1:ℚ) ≤ (refill N e.2 ⟨(((a' + 1 : Nat)) : ℚ), t0⟩).available := by
        rw [hfix]
        show (1:ℚ) ≤ ((a' + 1 : Nat) : ℚ)
        exact_mod_cast Nat.succ_le_succ (Nat.zero_le a')
      rw [runCalls_cons, call_admit_eq inner tr f N e.1 e.2 ⟨((a' + 1 : Nat):ℚ), t0⟩ m hadm]
      rw [admittedCount_cons]
      have hgate : (⟨(refill N e.2 ⟨((a' + 1 : Nat):ℚ), t0⟩).available - 1, e.2⟩ : GateState) =
          ⟨((a' : Nat):ℚ), t0⟩ := by
        rw [hfix, het]
        have : ((a' + 1 : Nat):ℚ) - 1 = ((a' : Nat):ℚ) := by push_cast; ring
        rw [this]
      rw [hgate, ih a' m hsame' (Nat.le_of_succ_le haN)]
      simp [Nat.succ_min_succ, Nat.add_comm]

/-- C1: with a limiter configured, any request on which the gate denies a token is
answered by an already-resolved error response whose error code is 429, whose
message is "Too many requests", which carries no data payload, and whose id equals
the incoming request's id. -/
theorem call_denied_rejects_with_429 {S ρ : Type} (inner : S) (tr : Transport)
    (f : S → Request → ρ) (N : Nat) (r : Request) (now : ℚ) (g : GateState)
    (m : LimitMiddlewareMetrics)
    (hdeny : (check_n N 1 now g).1 = false) :
    (((LimitMiddleware.mk inner (some N) tr).call f r now g m).response).isReady = true ∧
    ((LimitMiddleware.mk inner (some N) tr).call f r now g m).response =
      ResponseFuture.ready
        { id := r.id, err := { code := 429, message := "Too many requests", data := none } } := by
  rw [call_some_eq, if_pos hdeny]
  exact ⟨rfl, rfl⟩

/-- Witness for C1: with limit 1 and an empty bucket, the gate denies and the call
at request id 7 produces the resolved 429 response carrying id 7. -/
theorem call_denied_rejects_with_429_witness :
    (check_n 1 1 0 ⟨0, 0⟩).1 = false ∧
    ((((LimitMiddleware.mk () (some 1) Transport.Ws).call (fun _ _ => (0 : Nat))
        ⟨RequestId.num 7, "eth_call"⟩ 0 ⟨0, 0⟩
        ⟨fun _ => 0, fun _ => [], fun _ => 0⟩).response).isReady = true ∧
      ((LimitMiddleware.mk () (some 1) Transport.Ws).call (fun _ _ => (0 : Nat))
        ⟨RequestId.num 7, "eth_call"⟩ 0 ⟨0, 0⟩
        ⟨fun _ => 0, fun _ => [], fun _ => 0⟩).response =
        ResponseFuture.ready
          { id := RequestId.num 7,
            err := { code := 429, message := "Too many requests", data := none } }) :=
  ⟨by norm_num [check_n, refill],
   call_denied_rejects_with_429 () Transport.Ws (fun _ _ => (0 : Nat)) 1
     ⟨RequestId.num 7, "eth_call"⟩ 0 ⟨0, 0⟩ ⟨fun _ => 0, fun _ => [], fun _ => 0⟩
     (by norm_num [check_n, refill])⟩

/-- C2: on a denied request the inner handler's call is not invoked: the result's
inner-invocation flag is false, and the whole call result is independent of the
inner handler's behavior. -/
theorem call_denied_inner_not_invoked {S ρ : Type} (inner : S) (tr : Transport)
    (f f' : S → Request → ρ) (N : Nat) (r : Request) (now : ℚ) (g : GateState)
    (m : LimitMiddlewareMetrics)
    (hdeny : (check_n N 1 now g).1 = false) :
    ((LimitMiddleware.mk inner (some N) tr).call f r now g m).innerInvoked = false ∧
    (LimitMiddleware.mk inner (some N) tr).call f r now g m =
      (LimitMiddleware.mk inner (some N) tr).call f' r now g m := by
  rw [call_some_eq, call_some_eq, if_pos hdeny, if_pos hdeny]
  exact ⟨rfl, rfl⟩

/-- Witness for C2: with limit 1 and an empty bucket, the denied call does not
invoke the inner handler and two different inner handlers give the same result. -/
theorem call_denied_inner_not_invoked_witness :
    (check_n 1 1 0 ⟨0, 0⟩).1 = false ∧
    (((LimitMiddleware.mk () (some 1) Transport.Ws).call (fun _ _ => (0 : Nat))
        ⟨RequestId.num 2, "m"⟩ 0 ⟨0, 0⟩
        ⟨fun _ => 0, fun _ => [], fun _ => 0⟩).innerInvoked = false ∧
      (LimitMiddleware.mk () (some 1) Transport.Ws).call (fun _ _ => (0 : Nat))
        ⟨RequestId.num 2, "m"⟩ 0 ⟨0, 0⟩ ⟨fun _ => 0, fun _ => [], fun _ => 0⟩ =
      (LimitMiddleware.mk () (some 1) Transport.Ws).call (fun _ _ => (1 : Nat))
        ⟨RequestId.num 2, "m"⟩ 0 ⟨0, 0⟩ ⟨fun _ => 0, fun _ => [], fun _ => 0⟩) :=
  ⟨by norm_num [check_n, refill],
   call_denied_inner_not_invoked () Transport.Ws (fun _ _ => (0 : Nat)) (fun _ _ => (1 : Nat)) 1
     ⟨RequestId.num 2, "m"⟩ 0 ⟨0, 0⟩ ⟨fun _ => 0, fun _ => [], fun _ => 0⟩
     (by norm_num [check_n, refill])⟩

/-- C3: with no quota configured, `call` returns exactly the inner handler's future
unchanged, the bucket state and metrics are untouched (for every clock value and
every bucket state, so the gate is never consulted), and the inner handler is
invoked. -/
theorem call_no_limiter_pass_through {S ρ : Type} (inner : S) (tr : Transport)
    (f : S → Request → ρ) (r : Request) (now : ℚ) (g : GateState)
    (m : LimitMiddlewareMetrics) :
    (LimitMiddleware.mk inner none tr).call f r now g m =
      { response := ResponseFuture.future (f inner r), gate := g, metrics := m,
        innerInvoked := true } := rfl

/-- C4: construction with limit 0 fails with the source's diagnostic message and
produces no middleware, while construction with any positive limit or with no limit
succeeds. -/
theorem new_fail_fast_on_zero {S : Type} (inner : S) (n : Nat) (hn : 0 < n) :
    LimitMiddleware.new inner (some 0) =
        Except.error "requests per minute must be > 0; qed" ∧
    LimitMiddleware.new inner (some n) =
        Except.ok ⟨inner, some n, Transport.Ws⟩ ∧
    LimitMiddleware.new inner none = Except.ok ⟨inner, none, Transport.Ws⟩ := by
  refine ⟨rfl, ?_, rfl⟩
  simp only [LimitMiddleware.new, if_neg (Nat.pos_iff_ne_zero.mp hn)]

/-- Witness for C4: at limit 5 construction succeeds and at limit 0 it fails. -/
theorem new_fail_fast_on_zero_witness :
    0 < 5 ∧
    (LimitMiddleware.new () (some 0) =
        Except.error "requests per minute must be > 0; qed" ∧
      LimitMiddleware.new () (some 5) = Except.ok ⟨(), some 5, Transport.Ws⟩ ∧
      LimitMiddleware.new () none = Except.ok ⟨(), none, Transport.Ws⟩) :=
  ⟨by decide, new_fail_fast_on_zero () 5 (by decide)⟩

/-- C8: a denied gate check consumes no tokens: the state after a denying check
equals the state after the refill step alone (same available tokens, same
last-refill time). -/
theorem denied_check_state_is_refill_only (N k : Nat) (now : ℚ) (st : GateState)
    (h : (check_n N k now st).1 = false) :
    (check_n N k now st).2 = refill N now st := by
  by_cases hc : (k : ℚ) ≤ (refill N now st).available
  · rw [check_n_admits N k now st hc] at h
    simp at h
  · rw [check_n_denies N k now st hc]

/-- Witness for C8: with capacity 1, an empty bucket and no elapsed time, the check
denies and the resulting state is exactly the refilled state. -/
theorem denied_check_state_is_refill_only_witness :
    (check_n 1 1 0 ⟨0, 0⟩).1 = false ∧
    (check_n 1 1 0 ⟨0, 0⟩).2 = refill 1 0 ⟨0, 0⟩ :=
  ⟨by norm_num [check_n, refill],
   denied_check_state_is_refill_only 1 1 0 ⟨0, 0⟩ (by norm_num [check_n, refill])⟩

/-- C5: with limit N, the bucket starts full: from a freshly constructed middleware,
the first N requests arriving within a 60-second window are all admitted, each
forwarded to the inner handler with its future returned unchanged. -/
theorem fresh_bucket_admits_first_n {S ρ : Type} (inner : S) (tr : Transport)
    (f : S → Request → ρ) (N : Nat) (t0 : ℚ) (events : List (Request × ℚ))
    (m : LimitMiddlewareMetrics) (hlen : events.length = N)
    (_hwin : ∀ e ∈ events, t0 ≤ e.2 ∧ e.2 < t0 + 60) :
    (runCalls ⟨inner, some N, tr⟩ f events (GateState.fresh N t0) m).1 =
      events.map fun e => (ResponseFuture.future (f inner e.1), true) :=
  (runCalls_all_admitted inner tr f N events (GateState.fresh N t0) m (le_of_eq hlen)
    (by show (events.length : ℚ) ≤ (N : ℚ); exact_mod_cast le_of_eq hlen)).1

/-- Witness for C5: limit 2, two requests at times 0 and 1 within the fresh window
are both admitted and forwarded. -/
theorem fresh_bucket_admits_first_n_witness :
    ([(Request.mk (RequestId.num 1) "m", (0:ℚ)),
        (Request.mk (RequestId.num 2) "m", 1)].length = 2) ∧
    (∀ e ∈ [(Request.mk (RequestId.num 1) "m", (0:ℚ)),
        (Request.mk (RequestId.num 2) "m", 1)], (0:ℚ) ≤ e.2 ∧ e.2 < 0 + 60) ∧
    (runCalls ⟨(), some 2, Transport.Ws⟩ (fun _ _ => (0 : Nat))
        [(Request.mk (RequestId.num 1) "m", (0:ℚ)),
          (Request.mk (RequestId.num 2) "m", 1)]
        (GateState.fresh 2 0) ⟨fun _ => 0, fun _ => [], fun _ => 0⟩).1 =
      [(Request.mk (RequestId.num 1) "m", (0:ℚ)),
        (Request.mk (RequestId.num 2) "m", 1)].map
        (fun e => (ResponseFuture.future ((fun _ _ => (0 : Nat)) () e.1), true)) :=
  ⟨rfl, by norm_num,
   fresh_bucket_admits_first_n () Transport.Ws (fun _ _ => (0 : Nat)) 2 0
     [(Request.mk (RequestId.num 1) "m", (0:ℚ)), (Request.mk (RequestId.num 2) "m", 1)]
     ⟨fun _ => 0, fun _ => [], fun _ => 0⟩ rfl (by norm_num)⟩

/-- C6: after a full 60 seconds with no requests, the next check refills the bucket
to capacity, and the next N requests are all admitted again. -/
theorem quiescence_refills_and_readmits {S ρ : Type} (inner : S) (tr : Transport)
    (f : S → Request → ρ) (N : Nat) (e : Request × ℚ) (es : List (Request × ℚ))
    (g : GateState) (m : LimitMiddlewareMetrics)
    (h0 : 0 ≤ g.available) (hq : g.lastRefill + 60 ≤ e.2) (hlen : es.length + 1 = N) :
    (refill N e.2 g).available = (N : ℚ) ∧
    (runCalls ⟨inner, some N, tr⟩ f (e :: es) g m).1 =
      (e :: es).map fun x => (ResponseFuture.future (f inner x.1), true) := by
  have hfull := refill_full N e.2 g h0 hq
  refine ⟨hfull, ?_⟩
  have hN1 : 1 ≤ N := by omega
  have hadm : (1:ℚ) ≤ (refill N e.2 g).available := by
    rw [hfull]; exact_mod_cast hN1
  have hlenq : ((es.length : ℚ)) = (N:ℚ) - 1 := by
    have h : ((es.length : ℚ) + 1 = (N:ℚ)) := by exact_mod_cast hlen
    linarith
  have htail := runCalls_all_admitted inner tr f N es
      ⟨(refill N e.2 g).available - 1, e.2⟩ m (by omega)
      (by show (es.length : ℚ) ≤ (refill N e.2 g).available - 1
          rw [hfull, hlenq])
  rw [runCalls_cons, call_admit_eq inner tr f N e.1 e.2 g m hadm]
  simp only [List.map_cons]
  exact congrArg (List.cons _) htail.1

/-- Witness for C6: limit 1, a bucket emptied at time 0, one request at time 60:
the bucket refills to capacity and the request is admitted. -/
theorem quiescence_refills_and_readmits_witness :
    (0 : ℚ) ≤ (⟨0, 0⟩ : GateState).available ∧
    (⟨0, 0⟩ : GateState).lastRefill + 60 ≤ (Request.mk (RequestId.num 62) "m", (60:ℚ)).2 ∧
    ([] : List (Request × ℚ)).length + 1 = 1 ∧
    ((refill 1 (Request.mk (RequestId.num 62) "m", (60:ℚ)).2 ⟨0, 0⟩).available = ((1:Nat) : ℚ) ∧
      (runCalls ⟨(), some 1, Transport.Ws⟩ (fun _ _ => (0 : Nat))
          [(Request.mk (RequestId.num 62) "m", (60:ℚ))] ⟨0, 0⟩
          ⟨fun _ => 0, fun _ => [], fun _ => 0⟩).1 =
        [(Request.mk (RequestId.num 62) "m", (60:ℚ))].map
          (fun x => (ResponseFuture.future ((fun _ _ => (0 : Nat)) () x.1), true))) :=
  ⟨by norm_num, by norm_num, rfl,
   quiescence_refills_and_readmits () Transport.Ws (fun _ _ => (0 : Nat)) 1
     (Request.mk (RequestId.num 62) "m", (60:ℚ)) [] ⟨0, 0⟩
     ⟨fun _ => 0, fun _ => [], fun _ => 0⟩ (by norm_num) (by norm_num) rfl⟩

/-- Per-call effect on the `rate_limited` counter at the instance's transport:
plus one exactly when the call resolves locally with the denial response. -/
lemma call_rate_limited_step {S ρ : Type} (mw : LimitMiddleware S)
    (f : S → Request → ρ) (r : Request) (now : ℚ) (g : GateState)
    (m : LimitMiddlewareMetrics) :
    ((mw.call f r now g m).metrics).rate_limited mw.transport =
      m.rate_limited mw.transport +
        (if ((mw.call f r now g m).response).isReady = true then 1 else 0) := by
  obtain ⟨inner, rl, tr⟩ := mw
  cases rl with
  | none => rfl
  | some N =>
    by_cases hdeny : (check_n N 1 now g).1 = false
    · rw [call_some_eq, if_pos hdeny]
      simp [ResponseFuture.isReady, incRateLimited_self]
    · rw [call_some_eq, if_neg hdeny]
      rfl

/-- C7: after any sequence of calls, the increase of the `rate_limited` counter at
the instance's transport equals the number of denials (admissions and no-limiter
pass-throughs leave it unchanged). -/
theorem rate_limited_counts_denials {S ρ : Type} (mw : LimitMiddleware S)
    (f : S → Request → ρ) :
    ∀ (events : List (Request × ℚ)) (g : GateState) (m : LimitMiddlewareMetrics),
      ((runCalls mw f events g m).2.2).rate_limited mw.transport =
        m.rate_limited mw.transport + deniedCount (runCalls mw f events g m).1 := by
  intro events
  induction events with
  | nil => intro g m; simp [runCalls_nil, deniedCount]
  | cons e es ih =>
    intro g m
    rw [runCalls_cons]
    dsimp only
    rw [deniedCount_cons,
      ih (mw.call f e.1 e.2 g m).gate (mw.call f e.1 e.2 g m).metrics,
      call_rate_limited_step mw f e.1 e.2 g m]
    cases hr : ((mw.call f e.1 e.2 g m).response).isReady
    · simp [hr]
    · simp [hr]
      omega

/-- C9: K callers racing at one instant against a fresh bucket with limit N,
linearized by the gate as the spec requires: the number of admissions is at most N
and at least min(N, number of requests offered). -/
theorem concurrent_same_instant_admissions {S ρ : Type} (inner : S) (tr : Transport)
    (f : S → Request → ρ) (N : Nat) (t0 : ℚ) (events : List (Request × ℚ))
    (m : LimitMiddlewareMetrics)
    (hsame : ∀ e ∈ events, e.2 = t0) :
    admittedCount (runCalls ⟨inner, some N, tr⟩ f events (GateState.fresh N t0) m).1 ≤ N ∧
    min N events.length ≤
      admittedCount (runCalls ⟨inner, some N, tr⟩ f events (GateState.fresh N t0) m).1 := by
  have h := runCalls_count_at_instant inner tr f N t0 events N m hsame (le_refl N)
  have hfresh : (GateState.fresh N t0) = (⟨(N:ℚ), t0⟩ : GateState) := rfl
  rw [hfresh, h]
  exact ⟨min_le_left _ _, le_refl _⟩

/-- Witness for C9: limit 2, three requests racing at time 0: admissions are at
most 2 and at least min 2 3. -/
theorem concurrent_same_instant_admissions_witness :
    (∀ e ∈ [(Request.mk (RequestId.num 1) "m", (0:ℚ)),
        (Request.mk (RequestId.num 2) "m", 0), (Request.mk (RequestId.num 3) "m", 0)],
      e.2 = (0:ℚ)) ∧
    (admittedCount (runCalls ⟨(), some 2, Transport.Ws⟩ (fun _ _ => (0 : Nat))
        [(Request.mk (RequestId.num 1) "m", (0:ℚ)), (Request.mk (RequestId.num 2) "m", 0),
          (Request.mk (RequestId.num 3) "m", 0)]
        (GateState.fresh 2 0) ⟨fun _ => 0, fun _ => [], fun _ => 0⟩).1 ≤ 2 ∧
      min 2 [(Request.mk (RequestId.num 1) "m", (0:ℚ)), (Request.mk (RequestId.num 2) "m", 0),
          (Request.mk (RequestId.num 3) "m", 0)].length ≤
        admittedCount (runCalls ⟨(), some 2, Transport.Ws⟩ (fun _ _ => (0 : Nat))
          [(Request.mk (RequestId.num 1) "m", (0:ℚ)), (Request.mk (RequestId.num 2) "m", 0),
            (Request.mk (RequestId.num 3) "m", 0)]
          (GateState.fresh 2 0) ⟨fun _ => 0, fun _ => [], fun _ => 0⟩).1) :=
  ⟨by norm_num,
   concurrent_same_instant_admissions () Transport.Ws (fun _ _ => (0 : Nat)) 2 0
     [(Request.mk (RequestId.num 1) "m", (0:ℚ)), (Request.mk (RequestId.num 2) "m", 0),
       (Request.mk (RequestId.num 3) "m", 0)]
     ⟨fun _ => 0, fun _ => [], fun _ => 0⟩ (by norm_num)⟩

/-- C10: no call ever modifies the `rejected` counter family or records an
observation in the `size` histogram family, and `rate_limited` at the instance's
transport grows by one exactly when the call returns the locally resolved denial
and is unchanged otherwise. -/
theorem call_preserves_rejected_and_size {S ρ : Type} (mw : LimitMiddleware S)
    (f : S → Request → ρ) (r : Request) (now : ℚ) (g : GateState)
    (m : LimitMiddlewareMetrics) :
    ((mw.call f r now g m).metrics).rejected = m.rejected ∧
    ((mw.call f r now g m).metrics).size = m.size ∧
    ((mw.call f r now g m).metrics).rate_limited mw.transport =
      m.rate_limited mw.transport +
        (if ((mw.call f r now g m).response).isReady then 1 else 0) := by
  obtain ⟨inner, rl, tr⟩ := mw
  cases rl with
  | none => exact ⟨rfl, rfl, rfl⟩
  | some N =>
    by_cases hdeny : (check_n N 1 now g).1 = false
    · rw [call_some_eq, if_pos hdeny]
      refine ⟨rfl, rfl, ?_⟩
      simp [LimitMiddlewareMetrics.incRateLimited, ResponseFuture.isReady]
    · rw [call_some_eq, if_neg hdeny]
      exact ⟨rfl, rfl, rfl⟩

end BatchLimiter
